import Mathlib

/-!
A shallow embedding of the NodeStat cluster monitor (Go): the normalized
data model (`Node`, `Job`, `ClusterStats`), the aggregation engine (node
ranking and cluster statistics), the SLURM and Torque scheduler adapters'
parsing pipelines, and the refresh update step, together with theorems
checking the natural-language design specification against the code.

Go `int` values are modelled as `Int` (overflow is irrelevant at the
magnitudes the program handles); Go integer division truncates toward
zero and is modelled by `Int.tdiv`.  Go strings are Lean `String`s, and
the Go standard-library string operations the program uses
(`strings.Split`, `strings.Fields`, `strings.Contains`,
`strings.ReplaceAll`, `strings.ToLower`, `strconv.Atoi`,
`strconv.ParseFloat`) are given executable models over `String.data`.
-/

/-- Splits a character list at every character satisfying `p`; separators
are dropped and empty segments are kept, exactly as Go's `strings.Split`
produces them. -/
def splitChars (p : Char → Bool) : List Char → List (List Char)
  | [] => [[]]
  | c :: cs =>
    let r := splitChars p cs
    if p c then [] :: r
    else
      match r with
      | [] => [[c]]
      | h :: t => (c :: h) :: t

/-- Go `strings.Split` with a single-character separator (the program only
splits on `"="`, `":"`, `","`, `"+"` and `" "`). -/
def goSplit (s : String) (sep : Char) : List String :=
  (splitChars (fun c => c == sep) s.data).map String.mk

/-- Whitespace characters relevant to Go `strings.Fields` for scheduler
report text. -/
def isGoSpace (c : Char) : Bool :=
  c == ' ' || c == '\t' || c == '\n' || c == '\r'

/-- Go `strings.Fields`: split around runs of whitespace, producing no
empty fields. -/
def goFields (s : String) : List String :=
  ((splitChars isGoSpace s.data).filter (fun l => !l.isEmpty)).map String.mk

/-- Does `pat` occur as a contiguous run inside `l`? -/
def hasRun (pat : List Char) : List Char → Bool
  | [] => pat.isEmpty
  | c :: cs => pat.isPrefixOf (c :: cs) || hasRun pat cs

/-- Go `strings.Contains`. -/
def strContains (s pat : String) : Bool := hasRun pat.data s.data

/-- Recursion core of `strings.ReplaceAll`, with an explicit fuel
argument that makes the recursion structural (so that the kernel can
evaluate it): every left-to-right, non-overlapping occurrence of `pat` is
replaced by `rep`.  Each step consumes one fuel and at least one
character, so with fuel set to the list's length — as `replaceAll` does —
the exhaustion arm is never reached. -/
def replaceAllFuel (pat rep : List Char) : Nat → List Char → List Char
  | _, [] => []
  | 0, l => l
  | fuel + 1, c :: cs =>
    if pat.isPrefixOf (c :: cs) && !pat.isEmpty then
      rep ++ replaceAllFuel pat rep fuel (cs.drop (pat.length - 1))
    else
      c :: replaceAllFuel pat rep fuel cs

/-- Go `strings.ReplaceAll` on character lists.  (For an empty pattern Go
splices `rep` between characters; the program never replaces an empty
pattern, and this model leaves the list unchanged there.) -/
def replaceAll (pat rep l : List Char) : List Char := replaceAllFuel pat rep l.length l

/-- Go `strings.ReplaceAll` on strings. -/
def goReplaceAll (s pat rep : String) : String :=
  String.mk (replaceAll pat.data rep.data s.data)

/-- Go `strings.ToLower` (ASCII case folding suffices for the scheduler
state words the program lowercases). -/
def goToLower (s : String) : String := String.mk (s.data.map Char.toLower)

/-- Numeric value of a decimal digit string, most significant digit
first. -/
def digitsToNat (l : List Char) : Nat :=
  l.foldl (fun a c => a * 10 + (c.toNat - 48)) 0

/-- Go `strconv.Atoi`.  (64-bit overflow is not modelled; every parsed
program value is far below the bound.) -/
def goAtoi (s : String) : Option Int :=
  match s.data with
  | [] => none
  | c :: cs =>
    if c = '-' then
      if !cs.isEmpty && cs.all Char.isDigit then some (-(digitsToNat cs : Int)) else none
    else if c = '+' then
      if !cs.isEmpty && cs.all Char.isDigit then some ((digitsToNat cs : Int)) else none
    else
      if (c :: cs).all Char.isDigit then some ((digitsToNat (c :: cs) : Int)) else none

/-- Decimal forms accepted by Go `strconv.ParseFloat` without exponent:
integer digits with an optional fraction part (at least one digit in
total). -/
def parseDecimalQ (l : List Char) : Option ℚ :=
  match splitChars (fun c => c == '.') l with
  | [ip] =>
    if !ip.isEmpty && ip.all Char.isDigit then some ((digitsToNat ip : ℚ)) else none
  | [ip, fp] =>
    if !(ip ++ fp).isEmpty && (ip ++ fp).all Char.isDigit then
      some (mkRat (digitsToNat (ip ++ fp) : Int) (10 ^ fp.length))
    else none
  | _ => none

/-- Go `strconv.ParseFloat`, modelled exactly over `ℚ` for plain decimal
forms (optional sign, digits, optional fraction); exponent, hex and
inf/NaN forms never occur in the scheduler memory fields at issue and
parse to `none`.  `float64` rounding is not modelled: every string this
development evaluates has a value that `float64` represents exactly
(integers below `2 ^ 53`, or a short exact binary fraction), so the `ℚ`
model agrees with Go there. -/
def goParseFloatQ (s : String) : Option ℚ :=
  match s.data with
  | [] => none
  | c :: cs =>
    if c = '-' then (parseDecimalQ cs).map (fun q => -q)
    else if c = '+' then parseDecimalQ cs
    else parseDecimalQ (c :: cs)

/-- Go conversion `int(f)` from a float truncates toward zero. -/
def goTruncToInt (q : ℚ) : Int := Int.tdiv q.num (q.den : Int)

/-- The Go type `models.NodeState` is a string type; its zero value is the
empty string. -/
abbrev NodeState := String

def StateIdle : NodeState := "Idle"

def StateRunning : NodeState := "Running"

def StateDown : NodeState := "Down"

def StateOffline : NodeState := "Offline"

def StateBusy : NodeState := "Busy"

def StateDrained : NodeState := "Drained"

/-- The Go struct `models.Node`; field defaults are the Go zero values.
The numeric fields are Go `int`s, so they may be negative. -/
structure Node where
  ID : String := ""
  State : NodeState := ""
  TotalCores : Int := 0
  UsedCores : Int := 0
  TotalMemMB : Int := 0
  UsedMemMB : Int := 0
  Partitions : List String := []
  Jobs : List String := []
deriving DecidableEq, Repr

/-- `Node.GetAvailCores`: available CPU cores. -/
def Node.GetAvailCores (n : Node) : Int := n.TotalCores - n.UsedCores

/-- `Node.GetAvailMemGB`: available memory in GB (Go integer division by
1000, truncating toward zero). -/
def Node.GetAvailMemGB (n : Node) : Int := Int.tdiv (n.TotalMemMB - n.UsedMemMB) 1000

/-- `Node.GetTotalMemGB`: total memory in GB. -/
def Node.GetTotalMemGB (n : Node) : Int := Int.tdiv n.TotalMemMB 1000

/-- `Node.GetUsedMemGB`: used memory in GB. -/
def Node.GetUsedMemGB (n : Node) : Int := Int.tdiv n.UsedMemMB 1000

/-- `Node.IsAvailable`: the node's state is Idle or Running, and it has
strictly positive available cores and strictly positive available memory
in GB. -/
def Node.IsAvailable (n : Node) : Bool :=
  (n.State == StateIdle || n.State == StateRunning) &&
    decide (n.GetAvailCores > 0) && decide (n.GetAvailMemGB > 0)

/-- The Go struct `models.Job` (the three `time.Duration` fields and the
submit time are carried as integer seconds; they play no role in the
verified properties). -/
structure Job where
  ID : String := ""
  User : String := ""
  Name : String := ""
  State : String := ""
  NodeList : List String := []
  Partition : String := ""
  ReqNodes : Int := 0
  ReqCPUs : Int := 0
  ReqMemMB : Int := 0
  TimeLimitSec : Int := 0
  ElapsedSec : Int := 0
  CPUTimeSec : Int := 0
deriving DecidableEq, Repr

/-- The Go struct `models.ClusterStats`. -/
structure ClusterStats where
  TotalNodes : Int := 0
  AvailNodes : Int := 0
  TotalCores : Int := 0
  UsedCores : Int := 0
  AvailCores : Int := 0
  TotalMemoryGB : Int := 0
  UsedMemoryGB : Int := 0
  AvailMemoryGB : Int := 0
deriving DecidableEq, Repr

/-- The state-priority table in `App.fetchData`'s sort comparator: a Go map
with entries for Running, Busy, Drained, Down and Offline; looking up any
other state yields the map's zero value 0. -/
def stateOrder (s : NodeState) : Int :=
  if s = StateRunning then 0
  else if s = StateBusy then 1
  else if s = StateDrained then 2
  else if s = StateDown then 3
  else if s = StateOffline then 4
  else 0

/-- The composite power score `GetAvailCores()*1000 + GetAvailMemGB()`
computed for available nodes in `App.fetchData`'s sort comparator. -/
def powerScore (n : Node) : Int := n.GetAvailCores * 1000 + n.GetAvailMemGB

/-- The `less` closure passed to `sort.Slice` in `App.fetchData`:
availability first, then power score descending among available nodes,
then the state-priority table among unavailable nodes. -/
def nodeLess (ni nj : Node) : Bool :=
  if ni.IsAvailable ≠ nj.IsAvailable then ni.IsAvailable
  else if ni.IsAvailable && nj.IsAvailable then
    decide (powerScore ni > powerScore nj)
  else
    decide (stateOrder ni.State < stateOrder nj.State)

/-- Stable insertion of `a` into a list sorted by `nodeLess`: `a` lands
immediately before the first element it is strictly `nodeLess` than. -/
def insertNode (a : Node) : List Node → List Node
  | [] => [a]
  | b :: l => if nodeLess a b then a :: b :: l else b :: insertNode a l

/-- The node ranking performed by `sort.Slice(nodes, less)` in
`App.fetchData`, modelled as a stable insertion sort with the source's
comparator.  Go's `sort.Slice` runs exactly this insertion sort on ranges
of fewer than 13 elements; on longer inputs it runs pdqsort, which orders
the output by the same comparator but gives no stability guarantee. -/
def rankNodes (nodes : List Node) : List Node :=
  nodes.foldl (fun acc a => insertNode a acc) []

/-- `App.calculateStats`: one linear pass accumulating totals and the
available-node count, then the derived available figures computed as
total minus used. -/
def calculateStats (nodes : List Node) : ClusterStats :=
  let stats := nodes.foldl
    (fun s n =>
      { s with
        TotalNodes := s.TotalNodes + 1,
        TotalCores := s.TotalCores + n.TotalCores,
        UsedCores := s.UsedCores + n.UsedCores,
        TotalMemoryGB := s.TotalMemoryGB + n.GetTotalMemGB,
        UsedMemoryGB := s.UsedMemoryGB + n.GetUsedMemGB,
        AvailNodes := if n.IsAvailable then s.AvailNodes + 1 else s.AvailNodes })
    ({} : ClusterStats)
  { stats with
    AvailCores := stats.TotalCores - stats.UsedCores,
    AvailMemoryGB := stats.TotalMemoryGB - stats.UsedMemoryGB }

/-- The fields of the `ui.App` model that the refresh cycle reads and
writes (presentation-only fields are omitted). -/
structure App where
  currentPartition : String := ""
  currentUser : String := ""
  nodes : List Node := []
  jobs : List Job := []
  userJobs : List Job := []
  stats : ClusterStats := {}
  err : Option String := none
deriving Repr

/-- The messages a refresh attempt delivers to `App.Update`: a `dataMsg`
carrying a complete snapshot, or an `errorMsg`. -/
inductive Msg where
  | dataMsg (nodes : List Node) (jobs : List Job) (userJobs : List Job) (stats : ClusterStats)
  | errorMsg (e : String)
deriving Repr

/-- `App.fetchData`, as a function of the three adapter call results: a
node- or job-fetch failure aborts the attempt with `errorMsg`; a user-job
fetch failure is replaced by the empty list; on success the nodes are
sorted, stats are computed over them, and a full `dataMsg` snapshot is
produced. -/
def App.fetchData (nodesRes : Except String (List Node))
    (jobsRes : Except String (List Job))
    (userJobsRes : Except String (List Job)) : Msg :=
  match nodesRes with
  | .error e => .errorMsg e
  | .ok nodes =>
    match jobsRes with
    | .error e => .errorMsg e
    | .ok jobs =>
      let userJobs := match userJobsRes with
        | .error _ => []
        | .ok js => js
      let sorted := rankNodes nodes
      .dataMsg sorted jobs userJobs (calculateStats sorted)

/-- The `dataMsg` and `errorMsg` cases of `App.Update`: a snapshot message
replaces nodes, jobs, userJobs and stats and clears the error; an error
message only sets the error, leaving the published snapshot unchanged. -/
def App.Update (a : App) : Msg → App
  | .dataMsg nodes jobs userJobs stats =>
    { a with nodes := nodes, jobs := jobs, userJobs := userJobs,
             stats := stats, err := none }
  | .errorMsg e => { a with err := some e }

/-- `SlurmScheduler.parseNodeState`: keep only the part before the first
`+`, lowercase it, map the known states; unknown states default to
Busy. -/
def slurmParseNodeState (state : String) : NodeState :=
  let baseState := (goSplit state '+').headD ""
  let b := goToLower baseState
  if b = "idle" then StateIdle
  else if b = "allocated" || b = "mixed" then StateRunning
  else if b = "down" then StateDown
  else if b = "offline" then StateOffline
  else if b = "drained" || b = "drain" then StateDrained
  else StateBusy

/-- One `key=value` token of a SLURM node record applied to the node under
construction; tokens that do not split into exactly two parts, unknown
keys, and non-numeric values for the numeric keys are ignored. -/
def slurmApplyField (node : Node) (field : String) : Node :=
  match goSplit field '=' with
  | [key, value] =>
    if key = "NodeName" then { node with ID := value }
    else if key = "State" then { node with State := slurmParseNodeState value }
    else if key = "CPUAlloc" then
      match goAtoi value with
      | some v => { node with UsedCores := v }
      | none => node
    else if key = "CPUTot" then
      match goAtoi value with
      | some v => { node with TotalCores := v }
      | none => node
    else if key = "AllocMem" then
      match goAtoi value with
      | some v => { node with UsedMemMB := v }
      | none => node
    else if key = "RealMemory" then
      match goAtoi value with
      | some v => { node with TotalMemMB := v }
      | none => node
    else if key = "Partitions" then { node with Partitions := goSplit value ',' }
    else node
  | _ => node

/-- `SlurmScheduler.parseNodeInfo`: fold the whitespace-separated
`key=value` tokens of a record over a zero node.  In the source this
function's error result is always nil, so it is modelled as total. -/
def slurmParseNodeInfo (nodeInfo : String) : Node :=
  (goFields nodeInfo).foldl slurmApplyField {}

/-- `SlurmScheduler.nodeInPartition`. -/
def slurmNodeInPartition (node : Node) (partition : String) : Bool :=
  node.Partitions.contains partition

/-- The record-completion step of `SlurmScheduler.GetNodes`: parse the
accumulated record and append the node when it belongs to the
partition. -/
def slurmFlush (partition : String) (nodeInfo : String) (nodes : List Node) : List Node :=
  let node := slurmParseNodeInfo nodeInfo
  if slurmNodeInPartition node partition then nodes ++ [node] else nodes

/-- The scanner loop of `SlurmScheduler.GetNodes`: a line containing
`NodeName=` closes the record in progress; every line is then appended
(plus a space) to the record in progress; the final record is flushed
after the loop. -/
def slurmScanLines (partition : String) : List String → String → List Node → List Node
  | [], nodeInfo, nodes =>
    if nodeInfo ≠ "" then slurmFlush partition nodeInfo nodes else nodes
  | line :: rest, nodeInfo, nodes =>
    if strContains line "NodeName=" then
      let nodes' := if nodeInfo ≠ "" then slurmFlush partition nodeInfo nodes else nodes
      slurmScanLines partition rest (line ++ " ") nodes'
    else
      slurmScanLines partition rest (nodeInfo ++ line ++ " ") nodes

/-- `SlurmScheduler.GetNodes`, as a function of the `scontrol show nodes`
invocation result (its output lines on success, or the failure of the
command). -/
def slurmGetNodes (partition : String) (scontrolOutput : Except String (List String)) :
    Except String (List Node) :=
  match scontrolOutput with
  | .error e => .error ("failed to run scontrol: " ++ e)
  | .ok lines =>
    let nodes := slurmScanLines partition lines "" []
    if nodes.isEmpty then .error ("no nodes found in partition: " ++ partition)
    else .ok nodes

/-- The requested-memory parsing fragment of `SlurmScheduler.parseJobInfo`:
strip `Mc`, `Mn`, `n` and `c`, replace `G` by the three characters `000`,
parse the remainder as a float, and truncate to int; when the parse fails
the job's `ReqMemMB` field keeps its zero value. -/
def slurmParseReqMem (memStr : String) : Int :=
  let m := goReplaceAll memStr "Mc" ""
  let m := goReplaceAll m "Mn" ""
  let m := goReplaceAll m "n" ""
  let m := goReplaceAll m "c" ""
  let m := goReplaceAll m "G" "000"
  match goParseFloatQ m with
  | some q => goTruncToInt q
  | none => 0

/-- The space-collapsing loop of `TorqueScheduler.parseNodeInfo`: for i
from 30 down to 2, replace every run of i spaces by one space. -/
def torqueCollapse (l : List Char) : List Char :=
  (List.range 29).foldl (fun acc k => replaceAll (List.replicate (30 - k) ' ') [' '] acc) l

/-- `TorqueScheduler.parseNodeState`; unknown states default to Busy. -/
def torqueParseNodeState (state : String) : NodeState :=
  let s := goToLower state
  if s = "free" then StateIdle
  else if s = "busy" then StateBusy
  else if s = "down" then StateDown
  else if s = "offline" then StateOffline
  else StateBusy

/-- `TorqueScheduler.parseNodeInfo`: collapse repeated spaces, split on
single spaces, require at least four fields, then fill ID, state, the
`available:total` CPU pair, and the `available:total` memory pair (KB,
divided by 1000 into MB); used figures are derived as total minus
available. -/
def torqueParseNodeInfo (line : String) : Except String Node :=
  let line := String.mk (torqueCollapse line.data)
  let fields := goSplit line ' '
  if fields.length < 4 then .error "insufficient fields in node info"
  else
    let node : Node := {}
    let node := { node with
      ID := fields.getD 0 "",
      State := torqueParseNodeState (fields.getD 1 "") }
    let node :=
      match goSplit (fields.getD 2 "") ':' with
      | [availS, totalS] =>
        let node := match goAtoi totalS with
          | some total => { node with TotalCores := total }
          | none => node
        match goAtoi availS with
        | some avail => { node with UsedCores := node.TotalCores - avail }
        | none => node
      | _ => node
    let node :=
      match goSplit (fields.getD 3 "") ':' with
      | [availS, totalS] =>
        let node := match goAtoi totalS with
          | some total => { node with TotalMemMB := Int.tdiv total 1000 }
          | none => node
        match goAtoi availS with
        | some avail => { node with UsedMemMB := node.TotalMemMB - Int.tdiv avail 1000 }
        | none => node
      | _ => node
    .ok node

/-- The per-line selection of `TorqueScheduler.GetNodes`: a line is a
record of partition `p` when it contains `[p]` but not `[p][`; selected
lines that fail to parse are skipped. -/
def torqueSelectLine (partition : String) (line : String) : Option Node :=
  if strContains line ("[" ++ partition ++ "]") &&
      !(strContains line ("[" ++ partition ++ "][")) then
    (torqueParseNodeInfo line).toOption
  else none

/-- `TorqueScheduler.GetNodes`, as a function of the `mdiag -n -v`
invocation result. -/
def torqueGetNodes (partition : String) (mdiagOutput : Except String (List String)) :
    Except String (List Node) :=
  match mdiagOutput with
  | .error e => .error ("failed to run mdiag: " ++ e)
  | .ok lines =>
    let nodes := lines.filterMap (torqueSelectLine partition)
    if nodes.isEmpty then .error ("no nodes found in partition: " ++ partition)
    else .ok nodes

/-- `TorqueScheduler.GetUserJobs`, as a function of the `qstat -u user`
invocation result: the scanner loop inspects each output line but never
constructs a job, so on success the returned list is whatever the loop
left in `jobs` — nothing. -/
def torqueGetUserJobs (user : String) (qstatOutput : Except String (List String)) :
    Except String (List Job) :=
  match qstatOutput with
  | .error e => .error ("failed to run qstat for user " ++ user ++ ": " ++ e)
  | .ok lines => .ok (lines.foldl (fun jobs _line => jobs) ([] : List Job))

/-- Scenario node "a" of the specification's stats example, with the
memory quantities as stored in the data model (MB). -/
def nodeScenarioA : Node :=
  { ID := "a", State := StateIdle, TotalCores := 10, UsedCores := 0,
    TotalMemMB := 100, UsedMemMB := 0, Partitions := ["batch"] }

/-- Scenario node "b" of the specification's stats example. -/
def nodeScenarioB : Node :=
  { ID := "b", State := StateRunning, TotalCores := 10, UsedCores := 2,
    TotalMemMB := 100, UsedMemMB := 10, Partitions := ["batch"] }

/-- An Idle node with zero total cores and a negative used-core count.
The Go `int` fields admit this, and the Torque adapter derives used =
total − available, which goes negative whenever a report claims more
available than total cores. -/
def idleZeroCoreNode : Node :=
  { ID := "zc", State := StateIdle, TotalCores := 0, UsedCores := -1,
    TotalMemMB := 2000, UsedMemMB := 0 }

/-- An available node with 10 free cores and 5 free GB (the
specification's memory-tie-break example, node A). -/
def memTieNodeA : Node :=
  { ID := "A", State := StateIdle, TotalCores := 10, UsedCores := 0,
    TotalMemMB := 5000, UsedMemMB := 0 }

/-- An available node with 10 free cores and 50 free GB (the
specification's memory-tie-break example, node B). -/
def memTieNodeB : Node :=
  { ID := "B", State := StateIdle, TotalCores := 10, UsedCores := 0,
    TotalMemMB := 50000, UsedMemMB := 0 }

/-- A Busy node: unavailable, with state priority 1 in the table. -/
def busyNode : Node :=
  { ID := "busy", State := StateBusy, TotalCores := 16, UsedCores := 16,
    TotalMemMB := 64000, UsedMemMB := 64000 }

/-- An Idle node that is unavailable for lack of free memory; Idle is not
a key of the state-priority table. -/
def idleUnavailNode : Node :=
  { ID := "idleFull", State := StateIdle, TotalCores := 16, UsedCores := 0,
    TotalMemMB := 64000, UsedMemMB := 64000 }

/-- A Down node with plentiful free resources. -/
def downNode : Node :=
  { ID := "d", State := StateDown, TotalCores := 64, UsedCores := 0,
    TotalMemMB := 256000, UsedMemMB := 0 }

/-- The comparator of the node ranking is asymmetric. -/
theorem nodeLess_asymm {a b : Node} (h : nodeLess a b = true) : nodeLess b a = false := by
  unfold nodeLess at h ⊢
  cases ha : a.IsAvailable <;> cases hb : b.IsAvailable <;>
    simp [ha, hb] at h ⊢ <;> omega

/-- The comparator of the node ranking is transitive. -/
theorem nodeLess_trans {a b c : Node} (h₁ : nodeLess a b = true)
    (h₂ : nodeLess b c = true) : nodeLess a c = true := by
  unfold nodeLess at h₁ h₂ ⊢
  cases ha : a.IsAvailable <;> cases hb : b.IsAvailable <;> cases hc : c.IsAvailable <;>
    simp [ha, hb, hc] at h₁ h₂ ⊢ <;> omega

/-- Membership after insertion. -/
theorem mem_insertNode {x a : Node} {l : List Node} (h : x ∈ insertNode a l) :
    x = a ∨ x ∈ l := by
  induction l with
  | nil =>
    rw [insertNode] at h
    exact Or.inl (List.mem_singleton.mp h)
  | cons b t ih =>
    rw [insertNode] at h
    by_cases hab : nodeLess a b = true
    · rw [if_pos hab] at h
      rcases List.mem_cons.mp h with rfl | h
      · exact Or.inl rfl
      · exact Or.inr h
    · rw [if_neg hab] at h
      rcases List.mem_cons.mp h with rfl | h
      · exact Or.inr (List.mem_cons_self _ _)
      · rcases ih h with rfl | h
        · exact Or.inl rfl
        · exact Or.inr (List.mem_cons_of_mem _ h)

/-- Insertion preserves sortedness under the comparator (in the
never-greater formulation suitable for a strict weak order). -/
theorem pairwise_insertNode {a : Node} {l : List Node}
    (h : l.Pairwise (fun x y => nodeLess y x = false)) :
    (insertNode a l).Pairwise (fun x y => nodeLess y x = false) := by
  induction l with
  | nil => simp [insertNode]
  | cons b t ih =>
    rw [List.pairwise_cons] at h
    obtain ⟨hb, ht⟩ := h
    by_cases hab : nodeLess a b = true
    · rw [insertNode, if_pos hab, List.pairwise_cons]
      refine ⟨?_, ?_⟩
      · intro y hy
        rcases List.mem_cons.mp hy with rfl | hy
        · exact nodeLess_asymm hab
        · cases hya : nodeLess y a with
          | false => rfl
          | true => exact absurd (nodeLess_trans hya hab) (by simp [hb y hy])
      · rw [List.pairwise_cons]
        exact ⟨hb, ht⟩
    · have hab' : nodeLess a b = false := Bool.not_eq_true _ ▸ Bool.eq_false_iff.mpr hab
      rw [insertNode, if_neg hab, List.pairwise_cons]
      refine ⟨?_, ih ht⟩
      intro y hy
      rcases mem_insertNode hy with rfl | hy
      · exact hab'
      · exact hb y hy

/-- The ranking's output is pairwise ordered by the comparator: no later
element is strictly `nodeLess` than an earlier one. -/
theorem rankNodes_sorted (l : List Node) :
    (rankNodes l).Pairwise (fun x y => nodeLess y x = false) := by
  have key : ∀ (m : List Node) (acc : List Node),
      acc.Pairwise (fun x y => nodeLess y x = false) →
      (m.foldl (fun acc a => insertNode a acc) acc).Pairwise
        (fun x y => nodeLess y x = false) := by
    intro m
    induction m with
    | nil => intro acc h; simpa using h
    | cons a t ih => intro acc h; exact ih _ (pairwise_insertNode h)
  exact key l [] (by simp)

/-- In sorted position, an earlier node is available whenever a later one
is, and among available nodes the power score is nonincreasing. -/
theorem nodeLess_false_spec {x y : Node} (h : nodeLess y x = false) :
    (y.IsAvailable = true → x.IsAvailable = true) ∧
    (x.IsAvailable = true → y.IsAvailable = true → powerScore y ≤ powerScore x) := by
  unfold nodeLess at h
  cases hx : x.IsAvailable <;> cases hy : y.IsAvailable <;>
    simp [hx, hy] at h ⊢
  omega

/-- Claim C1 (amended): `IsAvailable` returns true iff the node's state is
Idle or Running and both its available cores and its available memory in
GB are strictly positive; a node with state Down is never available
regardless of its resource counts; and a node with state Idle and zero
total cores is never available provided its used-core count is
nonnegative (with a negative used-core count the code deems such a node
available — see the counterexample). -/
theorem isAvailable_characterization (n : Node) :
    (n.IsAvailable = true ↔
      ((n.State = StateIdle ∨ n.State = StateRunning) ∧
        0 < n.GetAvailCores ∧ 0 < n.GetAvailMemGB)) ∧
    (n.State = StateDown → n.IsAvailable = false) ∧
    (n.State = StateIdle → n.TotalCores = 0 → 0 ≤ n.UsedCores →
      n.IsAvailable = false) := by
  refine ⟨?_, ?_, ?_⟩
  · simp [Node.IsAvailable, and_assoc]
  · intro h
    unfold Node.IsAvailable
    rw [h]
    exact rfl
  · intro h1 h2 h3
    have hc : ¬ (0 < n.GetAvailCores) := by
      simp only [Node.GetAvailCores, h2]
      omega
    simp [Node.IsAvailable, hc]

/-- Witness for the amended claim C1, instantiated at a concrete Down
node with plentiful free resources. -/
theorem isAvailable_characterization_witness :
    downNode.IsAvailable = false :=
  (isAvailable_characterization downNode).2.1 rfl

/-- Claim C1 counterexample: a node with state Idle and zero total cores
for which `IsAvailable` nevertheless returns true, because its Go `int`
used-core count is negative, so total minus used is positive; this
refutes "a node with state Idle and zero total cores is never available
regardless of its resource counts". -/
theorem isAvailable_idle_zero_total_cores_counterexample :
    idleZeroCoreNode.State = StateIdle ∧ idleZeroCoreNode.TotalCores = 0 ∧
    idleZeroCoreNode.IsAvailable = true :=
  ⟨rfl, rfl, rfl⟩

/-- Claim C2: the ranking places every available node before every
unavailable node (for a two-element list literally: an unavailable node B
never precedes an available node A whatever B's power score), orders
available nodes by the composite power score `availCores*1000 +
availMemGB` descending, and with equal available cores the node with more
available memory in GB ranks first (the specification's concrete A/B
example). -/
theorem rankNodes_ordering :
    (∀ l : List Node, (rankNodes l).Pairwise (fun x y =>
        (y.IsAvailable = true → x.IsAvailable = true) ∧
        (x.IsAvailable = true → y.IsAvailable = true →
          powerScore y ≤ powerScore x))) ∧
    (∀ b a : Node, b.IsAvailable = false → a.IsAvailable = true →
        rankNodes [b, a] = [a, b]) ∧
    rankNodes [memTieNodeA, memTieNodeB] = [memTieNodeB, memTieNodeA] := by
  refine ⟨?_, ?_, ?_⟩
  · intro l
    exact (rankNodes_sorted l).imp (fun h => nodeLess_false_spec h)
  · intro b a hb ha
    have hab : nodeLess a b = true := by
      unfold nodeLess
      simp [ha, hb]
    simp [rankNodes, insertNode, hab]
  · rfl

/-- Witness for claim C2's availability-first part at concrete nodes. -/
theorem rankNodes_ordering_witness :
    rankNodes [busyNode, memTieNodeA] = [memTieNodeA, busyNode] :=
  rankNodes_ordering.2.1 busyNode memTieNodeA rfl rfl

/-- Claim C3: for every node list the computed stats satisfy AvailCores =
TotalCores − UsedCores and AvailMemoryGB = TotalMemoryGB − UsedMemoryGB:
the available figures are computed from the accumulated totals at the end
of the pass rather than cached independently. -/
theorem calculateStats_avail_derived (nodes : List Node) :
    (calculateStats nodes).AvailCores =
      (calculateStats nodes).TotalCores - (calculateStats nodes).UsedCores ∧
    (calculateStats nodes).AvailMemoryGB =
      (calculateStats nodes).TotalMemoryGB - (calculateStats nodes).UsedMemoryGB :=
  ⟨rfl, rfl⟩

/-- Claim C4 counterexample: on the specification's two-node scenario with
the memory quantities as stored in the data model (MB), both nodes have
less than one GB of memory free, so neither is available and AvailNodes
is 0, not the claimed 2. -/
theorem calculateStats_scenario_counterexample :
    (calculateStats [nodeScenarioA, nodeScenarioB]).AvailNodes = 0 ∧
    (calculateStats [nodeScenarioA, nodeScenarioB]).AvailNodes ≠ 2 :=
  ⟨rfl, by decide⟩

/-- Claim C4 (amended): on the two-node scenario the stats computation
yields TotalNodes = 2, AvailNodes = 0 (both nodes fail the positive
available-memory-in-GB test), TotalCores = 20, UsedCores = 2 and
AvailCores = 18. -/
theorem calculateStats_scenario :
    (calculateStats [nodeScenarioA, nodeScenarioB]).TotalNodes = 2 ∧
    (calculateStats [nodeScenarioA, nodeScenarioB]).AvailNodes = 0 ∧
    (calculateStats [nodeScenarioA, nodeScenarioB]).TotalCores = 20 ∧
    (calculateStats [nodeScenarioA, nodeScenarioB]).UsedCores = 2 ∧
    (calculateStats [nodeScenarioA, nodeScenarioB]).AvailCores = 18 :=
  ⟨rfl, rfl, rfl, rfl, rfl⟩

/-- Claim C5 counterexample: an unavailable Idle node (not a key of the
state-priority table) ranks before a Busy node instead of after all five
listed states, because the Go map lookup for a missing key returns the
zero value 0, tying Idle with Running's priority. -/
theorem rankNodes_unknown_state_counterexample :
    idleUnavailNode.State = StateIdle ∧ idleUnavailNode.IsAvailable = false ∧
    rankNodes [busyNode, idleUnavailNode] = [idleUnavailNode, busyNode] :=
  ⟨rfl, rfl, rfl⟩

/-- Claim C5 (amended): among unavailable nodes the ranking is
nondecreasing in the state priority Running = 0, Busy = 1, Drained = 2,
Down = 3, Offline = 4; an unavailable node whose state is none of those
five is given priority 0 (the Go map's zero value), so it ties with
Running and sorts before Busy, Drained, Down and Offline rather than
last. -/
theorem rankNodes_unavailable_state_order :
    (∀ l : List Node, (rankNodes l).Pairwise (fun x y =>
        x.IsAvailable = false → y.IsAvailable = false →
          stateOrder x.State ≤ stateOrder y.State)) ∧
    stateOrder StateRunning = 0 ∧ stateOrder StateBusy = 1 ∧
    stateOrder StateDrained = 2 ∧ stateOrder StateDown = 3 ∧
    stateOrder StateOffline = 4 ∧
    (∀ s : NodeState, s ≠ StateRunning → s ≠ StateBusy → s ≠ StateDrained →
        s ≠ StateDown → s ≠ StateOffline → stateOrder s = 0) := by
  refine ⟨?_, rfl, rfl, rfl, rfl, rfl, ?_⟩
  · intro l
    refine (rankNodes_sorted l).imp ?_
    intro x y h hx hy
    unfold nodeLess at h
    simp [hx, hy] at h
    omega
  · intro s h1 h2 h3 h4 h5
    simp [stateOrder, h1, h2, h3, h4, h5]

/-- Witness for the amended claim C5: the Idle state is not in the
priority table and gets priority 0. -/
theorem rankNodes_unavailable_state_order_witness :
    stateOrder idleUnavailNode.State = 0 :=
  rankNodes_unavailable_state_order.2.2.2.2.2.2 idleUnavailNode.State
    (by decide) (by decide) (by decide) (by decide) (by decide)

/-- A fold whose step never changes the accumulator returns it
unchanged. -/
theorem foldl_const {α β : Type} (l : List α) (init : β) :
    l.foldl (fun acc _ => acc) init = init := by
  induction l generalizing init with
  | nil => rfl
  | cons x t ih => exact ih init

/-- Claim C7: within one refresh attempt, a failing user-job fetch yields
an empty userJobs list in the published snapshot and does not set the
error, while a failing node fetch or a failing job fetch produces an
error message whose handling sets the error and leaves the previously
published nodes, jobs, userJobs and stats unchanged. -/
theorem fetchData_failure_isolation (a : App) (nodes : List Node)
    (jobs : List Job) (e : String) (jRes : Except String (List Job))
    (uRes : Except String (List Job)) :
    ((a.Update (App.fetchData (.ok nodes) (.ok jobs) (.error e))).userJobs = [] ∧
     (a.Update (App.fetchData (.ok nodes) (.ok jobs) (.error e))).err = none) ∧
    a.Update (App.fetchData (.error e) jRes uRes) = { a with err := some e } ∧
    a.Update (App.fetchData (.ok nodes) (.error e) uRes) = { a with err := some e } :=
  ⟨⟨rfl, rfl⟩, rfl, rfl⟩

/-- Claim C10: whenever the qstat invocation succeeds, Torque GetUserJobs
returns the empty job list — its scanner loop inspects lines but never
parses one into a job — and consequently a successful refresh with the
Torque backend publishes an empty userJobs list whatever the user and
whatever the qstat outcome. -/
theorem torqueGetUserJobs_always_empty (user : String) (lines : List String)
    (a : App) (q : Except String (List String)) (nodes : List Node)
    (jobs : List Job) :
    torqueGetUserJobs user (.ok lines) = .ok [] ∧
    (a.Update (App.fetchData (.ok nodes) (.ok jobs)
        (torqueGetUserJobs user q))).userJobs = [] := by
  constructor
  · show Except.ok (lines.foldl (fun jobs _line => jobs) ([] : List Job)) = .ok []
    rw [foldl_const]
  · cases q with
    | error e => rfl
    | ok ls =>
      have h : torqueGetUserJobs user (.ok ls) = .ok [] := by
        show Except.ok (ls.foldl (fun jobs _line => jobs) ([] : List Job)) = .ok []
        rw [foldl_const]
      rw [h]
      rfl

/-- Unfolding the data of a constructed string. -/
theorem mk_data (l : List Char) : (String.mk l).data = l := rfl

/-- Replacement at any fuel leaves a list alone when the pattern's first
character never occurs in it. -/
theorem replaceAllFuel_head_not_mem {p : Char} {ps rep : List Char} :
    ∀ (fuel : Nat) {l : List Char}, p ∉ l → replaceAllFuel (p :: ps) rep fuel l = l := by
  intro fuel
  induction fuel with
  | zero =>
    intro l _
    cases l with
    | nil => rfl
    | cons c cs => rfl
  | succ f ih =>
    intro l h
    cases l with
    | nil => rfl
    | cons c cs =>
      have hpc : (p == c) = false := by
        simp only [beq_eq_false_iff_ne, ne_eq]
        exact fun hp => h (hp ▸ List.mem_cons_self _ _)
      rw [replaceAllFuel]
      rw [show (p :: ps).isPrefixOf (c :: cs) = false by simp [List.isPrefixOf, hpc]]
      simp only [Bool.false_and, Bool.false_eq_true, if_false]
      rw [ih (fun hm => h (List.mem_cons_of_mem _ hm))]

/-- Replacement leaves a list alone when the pattern's first character
never occurs in it. -/
theorem replaceAll_head_not_mem {p : Char} {ps rep : List Char} {l : List Char}
    (h : p ∉ l) : replaceAll (p :: ps) rep l = l :=
  replaceAllFuel_head_not_mem l.length h

/-- A single-character replacement passes over a leading segment free of
that character, consuming one fuel per character. -/
theorem replaceAllFuel_single_append {c : Char} {rep : List Char} :
    ∀ (l : List Char), c ∉ l → ∀ (fuel : Nat) (m : List Char),
      replaceAllFuel [c] rep (l.length + fuel) (l ++ m) =
        l ++ replaceAllFuel [c] rep fuel m := by
  intro l
  induction l with
  | nil => intro _ fuel m; simp
  | cons x xs ih =>
    intro h fuel m
    have hcx : (c == x) = false := by
      simp only [beq_eq_false_iff_ne, ne_eq]
      exact fun hp => h (hp ▸ List.mem_cons_self _ _)
    have hlen : (x :: xs).length + fuel = (xs.length + fuel) + 1 := by
      simp [List.length_cons]
      omega
    rw [hlen, List.cons_append, replaceAllFuel]
    rw [show [c].isPrefixOf (x :: (xs ++ m)) = false by simp [List.isPrefixOf, hcx]]
    simp only [Bool.false_and, Bool.false_eq_true, if_false]
    rw [ih (fun hm => h (List.mem_cons_of_mem _ hm)) fuel m]
    rfl

/-- Removing or replacing the single trailing occurrence of a
character. -/
theorem replaceAll_remove_last {c : Char} {rep : List Char} {l : List Char}
    (h : c ∉ l) : replaceAll [c] rep (l ++ [c]) = l ++ rep := by
  unfold replaceAll
  have hlen : (l ++ [c]).length = l.length + 1 := by simp
  rw [hlen, replaceAllFuel_single_append l h 1 [c]]
  simp [replaceAllFuel]

/-- Non-membership in a list extended by one further character. -/
theorem not_mem_append_single {c x : Char} {l : List Char} (hl : c ∉ l) (hx : c ≠ x) :
    c ∉ l ++ [x] := by
  intro hm
  rcases List.mem_append.mp hm with h | h
  · exact hl h
  · exact hx (List.mem_singleton.mp h)

/-- Splitting a list that contains no separator yields the single
segment. -/
theorem splitChars_no_sep {p : Char → Bool} :
    ∀ {l : List Char}, (∀ c ∈ l, p c = false) → splitChars p l = [l] := by
  intro l
  induction l with
  | nil => intro _; rfl
  | cons c cs ih =>
    intro h
    have hr := ih (fun x hx => h x (List.mem_cons_of_mem _ hx))
    rw [splitChars, hr]
    simp [h c (List.mem_cons_self _ _)]

/-- Appending the digits 000 multiplies a numeral's value by 1000. -/
theorem digitsToNat_append_three_zeros (l : List Char) :
    digitsToNat (l ++ ['0', '0', '0']) = 1000 * digitsToNat l := by
  unfold digitsToNat
  rw [List.foldl_append]
  have h0 : '0'.toNat - 48 = 0 := rfl
  simp [List.foldl, h0]
  ring

/-- The replacement pipeline of the requested-memory fragment, written
over character lists. -/
theorem slurmParseReqMem_eq (s : String) :
    slurmParseReqMem s =
      match goParseFloatQ (String.mk (replaceAll ['G'] ['0', '0', '0']
          (replaceAll ['c'] [] (replaceAll ['n'] []
            (replaceAll ['M', 'n'] [] (replaceAll ['M', 'c'] [] s.data)))))) with
      | some q => goTruncToInt q
      | none => 0 := rfl

/-- Claim C9 counterexample: the memory field `2.5G` — a numeric value
followed by G — parses to a requested memory of 2 MB, not 2500 MB: the
unit handling replaces the character G by the text 000, which multiplies
the value by 1000 only when it is an integer; `2.5G` becomes `2.5000`,
and the float-to-int conversion truncates it to 2. -/
theorem slurmParseReqMem_fractional_counterexample :
    slurmParseReqMem "2.5G" = 2 ∧ slurmParseReqMem "2.5G" ≠ 2500 :=
  ⟨rfl, by decide⟩

/-- Claim C9 (amended): for every nonnegative integer value v (given as
its nonempty decimal digit string), parsing the requested-memory field
consisting of v followed by `G` — optionally with a trailing `n` or `c`
marker — yields v times 1000 megabytes.  The `2 ^ 53` bound keeps the
exact-rational model honest about Go's `float64`, which represents
integers exactly up to that bound.  Fractional values are mis-parsed
because `G` is replaced textually by `000` (see the counterexample). -/
theorem slurmParseReqMem_integer_G (ds : List Char) (v : Nat)
    (hne : ds ≠ []) (hdig : ∀ c ∈ ds, c.isDigit = true)
    (hv : digitsToNat ds = v) (_hbound : 1000 * v < 2 ^ 53) :
    slurmParseReqMem (String.mk (ds ++ ['G'])) = (1000 * v : Int) ∧
    slurmParseReqMem (String.mk (ds ++ ['G', 'n'])) = (1000 * v : Int) ∧
    slurmParseReqMem (String.mk (ds ++ ['G', 'c'])) = (1000 * v : Int) := by
  have hM : 'M' ∉ ds := fun hm => absurd (hdig 'M' hm) (by decide)
  have hn : 'n' ∉ ds := fun hm => absurd (hdig 'n' hm) (by decide)
  have hcm : 'c' ∉ ds := fun hm => absurd (hdig 'c' hm) (by decide)
  have hG : 'G' ∉ ds := fun hm => absurd (hdig 'G' hm) (by decide)
  have hMG : 'M' ∉ ds ++ ['G'] := not_mem_append_single hM (by decide)
  have hnG : 'n' ∉ ds ++ ['G'] := not_mem_append_single hn (by decide)
  have hcG : 'c' ∉ ds ++ ['G'] := not_mem_append_single hcm (by decide)
  have hMGn : 'M' ∉ (ds ++ ['G']) ++ ['n'] := not_mem_append_single hMG (by decide)
  have hMGc : 'M' ∉ (ds ++ ['G']) ++ ['c'] := not_mem_append_single hMG (by decide)
  have hnGc : 'n' ∉ (ds ++ ['G']) ++ ['c'] := not_mem_append_single hnG (by decide)
  have hall : ∀ c ∈ ds ++ ['0', '0', '0'], c.isDigit = true := by
    intro c hcmem
    rcases List.mem_append.mp hcmem with h | h
    · exact hdig c h
    · simp only [List.mem_cons, List.not_mem_nil, or_false, or_self] at h
      rw [h]
      rfl
  have hparse : goParseFloatQ (String.mk (ds ++ ['0', '0', '0'])) =
      some ((digitsToNat (ds ++ ['0', '0', '0']) : ℚ)) := by
    have hnodot : ∀ c ∈ ds ++ ['0', '0', '0'], (c == '.') = false := by
      intro c hcmem
      have hcd := hall c hcmem
      cases hcq : (c == '.') with
      | false => rfl
      | true =>
        rw [beq_iff_eq.mp hcq] at hcd
        exact absurd hcd (by decide)
    obtain ⟨d, ds', rfl⟩ : ∃ d ds', ds = d :: ds' := by
      cases ds with
      | nil => exact absurd rfl hne
      | cons d ds' => exact ⟨d, ds', rfl⟩
    have hd := hdig d (List.mem_cons_self _ _)
    have hd1 : ¬ (d = '-') := fun hcon => absurd (hcon ▸ hd) (by decide)
    have hd2 : ¬ (d = '+') := fun hcon => absurd (hcon ▸ hd) (by decide)
    show (if d = '-' then (parseDecimalQ (ds' ++ ['0', '0', '0'])).map (fun q => -q)
          else if d = '+' then parseDecimalQ (ds' ++ ['0', '0', '0'])
          else parseDecimalQ (d :: (ds' ++ ['0', '0', '0']))) = _
    rw [if_neg hd1, if_neg hd2]
    have hnodot2 : ∀ c ∈ d :: (ds' ++ ['0', '0', '0']), (c == '.') = false := hnodot
    have hsplit := splitChars_no_sep (p := fun c => c == '.') hnodot2
    unfold parseDecimalQ
    rw [hsplit]
    have hcond : (!(d :: (ds' ++ ['0', '0', '0'])).isEmpty &&
        (d :: (ds' ++ ['0', '0', '0'])).all Char.isDigit) = true := by
      rw [Bool.and_eq_true]
      exact ⟨rfl, List.all_eq_true.mpr hall⟩
    show (if (!(d :: (ds' ++ ['0', '0', '0'])).isEmpty &&
        (d :: (ds' ++ ['0', '0', '0'])).all Char.isDigit) = true
      then some ((digitsToNat (d :: (ds' ++ ['0', '0', '0'])) : ℚ)) else none) = _
    rw [if_pos hcond]
    rfl
  have hfinal : goTruncToInt ((digitsToNat (ds ++ ['0', '0', '0']) : ℚ)) = (1000 * v : Int) := by
    rw [digitsToNat_append_three_zeros, hv]
    unfold goTruncToInt
    rw [Rat.num_natCast, Rat.den_natCast]
    push_cast
    rw [Int.tdiv_one]
  refine ⟨?_, ?_, ?_⟩
  · rw [slurmParseReqMem_eq, mk_data]
    rw [replaceAll_head_not_mem hMG]
    rw [replaceAll_head_not_mem hMG]
    rw [replaceAll_head_not_mem hnG]
    rw [replaceAll_head_not_mem hcG]
    rw [replaceAll_remove_last hG]
    rw [hparse]
    exact hfinal
  · rw [slurmParseReqMem_eq, mk_data]
    rw [show ds ++ ['G', 'n'] = (ds ++ ['G']) ++ ['n'] from (List.append_assoc ds ['G'] ['n']).symm]
    rw [replaceAll_head_not_mem hMGn]
    rw [replaceAll_head_not_mem hMGn]
    rw [replaceAll_remove_last hnG]
    rw [List.append_nil]
    rw [replaceAll_head_not_mem hcG]
    rw [replaceAll_remove_last hG]
    rw [hparse]
    exact hfinal
  · rw [slurmParseReqMem_eq, mk_data]
    rw [show ds ++ ['G', 'c'] = (ds ++ ['G']) ++ ['c'] from (List.append_assoc ds ['G'] ['c']).symm]
    rw [replaceAll_head_not_mem hMGc]
    rw [replaceAll_head_not_mem hMGc]
    rw [replaceAll_head_not_mem hnGc]
    rw [replaceAll_remove_last hcG]
    rw [List.append_nil]
    rw [replaceAll_remove_last hG]
    rw [hparse]
    exact hfinal

/-- Witness for the amended claim C9 at the concrete memory fields `16G`
and `16Gn`. -/
theorem slurmParseReqMem_integer_G_witness :
    slurmParseReqMem "16G" = 16000 ∧ slurmParseReqMem "16Gn" = 16000 := by
  have h := slurmParseReqMem_integer_G ['1', '6'] 16 (by decide) (by decide)
    (by decide) (by decide)
  exact ⟨h.1, h.2.1⟩

/-- Filtering with a function that succeeds on every element keeps the
length. -/
theorem filterMap_length_of_isSome {α β : Type} (f : α → Option β) :
    ∀ l : List α, (∀ x ∈ l, (f x).isSome = true) → (l.filterMap f).length = l.length := by
  intro l
  induction l with
  | nil => intro _; rfl
  | cons x xs ih =>
    intro h
    obtain ⟨b, hb⟩ := Option.isSome_iff_exists.mp (h x (List.mem_cons_self _ _))
    rw [List.filterMap_cons, hb]
    simp only [List.length_cons]
    rw [ih (fun y hy => h y (List.mem_cons_of_mem _ hy))]

/-- Unfolding of `TorqueScheduler.GetNodes` on a successful command
invocation. -/
theorem torqueGetNodes_ok (p : String) (lines : List String) :
    torqueGetNodes p (.ok lines) =
      if (lines.filterMap (torqueSelectLine p)).isEmpty then
        .error ("no nodes found in partition: " ++ p)
      else .ok (lines.filterMap (torqueSelectLine p)) := rfl

/-- Unfolding of `SlurmScheduler.GetNodes` on a successful command
invocation. -/
theorem slurmGetNodes_ok (p : String) (lines : List String) :
    slurmGetNodes p (.ok lines) =
      if (slurmScanLines p lines "" []).isEmpty then
        .error ("no nodes found in partition: " ++ p)
      else .ok (slurmScanLines p lines "" []) := rfl

/-- When every following line opens a new record, a nonempty record in
progress is flushed before the scan continues. -/
theorem slurmScan_step (p : String) (rest : List String)
    (hrest : ∀ l ∈ rest, strContains l "NodeName=" = true)
    (info : String) (hinfo : info ≠ "") (acc : List Node) :
    slurmScanLines p rest info acc = slurmScanLines p rest "" (slurmFlush p info acc) := by
  cases rest with
  | nil => simp [slurmScanLines, hinfo]
  | cons m rest' =>
    have hm := hrest m (List.mem_cons_self _ _)
    simp [slurmScanLines, hm, hinfo]

/-- The SLURM scanner over single-line records (each line carrying the
`NodeName=` marker): the output appends, in order, the parse of each line
that lands in the partition. -/
theorem slurmScan_single_records (p : String) :
    ∀ (lines : List String), (∀ l ∈ lines, strContains l "NodeName=" = true) →
    ∀ acc : List Node, slurmScanLines p lines "" acc =
      acc ++ lines.filterMap (fun l =>
        if slurmNodeInPartition (slurmParseNodeInfo (l ++ " ")) p then
          some (slurmParseNodeInfo (l ++ " ")) else none) := by
  intro lines
  induction lines with
  | nil => intro _ acc; simp [slurmScanLines]
  | cons m rest ih =>
    intro h acc
    have hm := h m (List.mem_cons_self _ _)
    have hrest : ∀ l ∈ rest, strContains l "NodeName=" = true :=
      fun l hl => h l (List.mem_cons_of_mem _ hl)
    have h1 : slurmScanLines p (m :: rest) "" acc = slurmScanLines p rest (m ++ " ") acc := by
      simp [slurmScanLines, hm]
    have hne : (m ++ " " : String) ≠ "" := by
      intro hcon
      have hdata : (m ++ " ").data = ("" : String).data := by rw [hcon]
      rw [String.data_append] at hdata
      simp at hdata
    rw [h1, slurmScan_step p rest hrest (m ++ " ") hne acc, ih hrest]
    rw [List.filterMap_cons]
    by_cases hin : slurmNodeInPartition (slurmParseNodeInfo (m ++ " ")) p = true
    · simp [slurmFlush, hin]
    · have hin2 : slurmNodeInPartition (slurmParseNodeInfo (m ++ " ")) p = false := by
        simpa using hin
      simp [slurmFlush, hin2]

/-- Claim C8: for both parsing backends, one malformed node record among
N well-formed records (N at least 1) is skipped locally and GetNodes
returns exactly the N parsed good nodes, unperturbed.  For Torque, a
malformed record is a selected line whose parse fails (fewer than four
fields).  For SLURM the record parser never fails, so a malformed record
is one whose content yields no membership in the requested partition —
the only local discard the scanner performs — and records are taken
single-line, each carrying the `NodeName=` marker. -/
theorem getNodes_skip_malformed :
    (∀ (p : String) (good₁ good₂ : List String) (bad : String),
      (∀ l ∈ good₁ ++ good₂, (torqueSelectLine p l).isSome = true) →
      strContains bad ("[" ++ p ++ "]") = true →
      strContains bad ("[" ++ p ++ "][") = false →
      (torqueParseNodeInfo bad).isOk = false →
      good₁ ++ good₂ ≠ [] →
      torqueGetNodes p (.ok (good₁ ++ bad :: good₂)) =
        .ok ((good₁ ++ good₂).filterMap (torqueSelectLine p)) ∧
      ((good₁ ++ good₂).filterMap (torqueSelectLine p)).length =
        (good₁ ++ good₂).length) ∧
    (∀ (p : String) (good₁ good₂ : List String) (bad : String),
      (∀ l ∈ good₁ ++ good₂, strContains l "NodeName=" = true ∧
        slurmNodeInPartition (slurmParseNodeInfo (l ++ " ")) p = true) →
      strContains bad "NodeName=" = true →
      slurmNodeInPartition (slurmParseNodeInfo (bad ++ " ")) p = false →
      good₁ ++ good₂ ≠ [] →
      slurmGetNodes p (.ok (good₁ ++ bad :: good₂)) =
        .ok ((good₁ ++ good₂).map (fun l => slurmParseNodeInfo (l ++ " ")))) := by
  constructor
  · intro p good₁ good₂ bad h1 h2 h3 h4 h5
    have hbadnone : torqueSelectLine p bad = none := by
      unfold torqueSelectLine
      rw [h2, h3]
      cases hpb : torqueParseNodeInfo bad with
      | ok n => rw [hpb] at h4; exact absurd h4 (by simp [Except.isOk, Except.toBool])
      | error e => simp [Except.toOption]
    have hnodes : (good₁ ++ bad :: good₂).filterMap (torqueSelectLine p) =
        (good₁ ++ good₂).filterMap (torqueSelectLine p) := by
      rw [List.filterMap_append, List.filterMap_append, List.filterMap_cons, hbadnone]
    have hlen : ((good₁ ++ good₂).filterMap (torqueSelectLine p)).length =
        (good₁ ++ good₂).length := filterMap_length_of_isSome _ _ h1
    have hnonempty : ((good₁ ++ good₂).filterMap (torqueSelectLine p)).isEmpty = false := by
      cases hemp : ((good₁ ++ good₂).filterMap (torqueSelectLine p)).isEmpty with
      | false => rfl
      | true =>
        rw [List.isEmpty_iff.mp hemp] at hlen
        exact absurd (List.length_eq_zero.mp hlen.symm) h5
    refine ⟨?_, hlen⟩
    rw [torqueGetNodes_ok, hnodes, hnonempty]
    rfl
  · intro p good₁ good₂ bad h1 h2 h3 h4
    have hmarks : ∀ l ∈ good₁ ++ bad :: good₂, strContains l "NodeName=" = true := by
      intro l hl
      rcases List.mem_append.mp hl with h | h
      · exact (h1 l (List.mem_append.mpr (Or.inl h))).1
      · rcases List.mem_cons.mp h with rfl | h
        · exact h2
        · exact (h1 l (List.mem_append.mpr (Or.inr h))).1
    have hmap : ∀ m : List String,
        (∀ l ∈ m, slurmNodeInPartition (slurmParseNodeInfo (l ++ " ")) p = true) →
        m.filterMap (fun l =>
          if slurmNodeInPartition (slurmParseNodeInfo (l ++ " ")) p then
            some (slurmParseNodeInfo (l ++ " ")) else none) =
        m.map (fun l => slurmParseNodeInfo (l ++ " ")) := by
      intro m
      induction m with
      | nil => intro _; rfl
      | cons x xs ih =>
        intro hx
        rw [List.filterMap_cons]
        simp [hx x (List.mem_cons_self _ _), ih (fun y hy => hx y (List.mem_cons_of_mem _ hy))]
    have hscan := slurmScan_single_records p (good₁ ++ bad :: good₂) hmarks []
    have hsplitfm : (good₁ ++ bad :: good₂).filterMap (fun l =>
        if slurmNodeInPartition (slurmParseNodeInfo (l ++ " ")) p then
          some (slurmParseNodeInfo (l ++ " ")) else none) =
        (good₁ ++ good₂).map (fun l => slurmParseNodeInfo (l ++ " ")) := by
      rw [List.filterMap_append, List.filterMap_cons]
      rw [show (if slurmNodeInPartition (slurmParseNodeInfo (bad ++ " ")) p then
          some (slurmParseNodeInfo (bad ++ " ")) else none) = none by simp [h3]]
      rw [List.map_append]
      rw [hmap good₁ (fun l hl => (h1 l (List.mem_append.mpr (Or.inl hl))).2)]
      rw [hmap good₂ (fun l hl => (h1 l (List.mem_append.mpr (Or.inr hl))).2)]
    have hnonempty : ((good₁ ++ bad :: good₂).filterMap (fun l =>
        if slurmNodeInPartition (slurmParseNodeInfo (l ++ " ")) p then
          some (slurmParseNodeInfo (l ++ " ")) else none)).isEmpty = false := by
      rw [hsplitfm]
      cases hemp : ((good₁ ++ good₂).map (fun l => slurmParseNodeInfo (l ++ " "))).isEmpty with
      | false => rfl
      | true =>
        have hmaplen := List.isEmpty_iff.mp hemp
        have := congrArg List.length hmaplen
        rw [List.length_map] at this
        exact absurd (List.length_eq_zero.mp this) h4
    rw [slurmGetNodes_ok, hscan]
    simp only [List.nil_append]
    rw [hnonempty]
    simp only [Bool.false_eq_true, if_false]
    rw [hsplitfm]

/-- Witness for claim C8: one good and one malformed record for each
backend; the single good node survives. -/
theorem getNodes_skip_malformed_witness :
    torqueGetNodes "batch" (.ok ["node01 free 8:16 1000000:2000000 [batch]", "bad [batch]"]) =
      .ok (["node01 free 8:16 1000000:2000000 [batch]"].filterMap (torqueSelectLine "batch")) ∧
    (["node01 free 8:16 1000000:2000000 [batch]"].filterMap (torqueSelectLine "batch")).length = 1 ∧
    slurmGetNodes "batch"
        (.ok ["NodeName=n1 CPUTot=16 RealMemory=64000 Partitions=batch", "NodeName=zz GARBAGE"]) =
      .ok (["NodeName=n1 CPUTot=16 RealMemory=64000 Partitions=batch"].map
        (fun l => slurmParseNodeInfo (l ++ " "))) := by
  have ht := getNodes_skip_malformed.1 "batch"
    ["node01 free 8:16 1000000:2000000 [batch]"] [] "bad [batch]"
    (by decide) (by decide) (by decide) (by decide) (by decide)
  have hs := getNodes_skip_malformed.2 "batch"
    ["NodeName=n1 CPUTot=16 RealMemory=64000 Partitions=batch"] [] "NodeName=zz GARBAGE"
    (by decide) (by decide) (by decide) (by decide)
  exact ⟨ht.1, ht.2, hs⟩
